import Mathlib

/-!
# Fountain-code server: embedding of `randgen.h` and `server.c`

Machine integers are modelled as `Nat`/`Int` with explicit wrap-around:
`uint64_t` arithmetic is reduced modulo `2^64`, the cast to `unsigned int`
modulo `2^32`, and a conversion to a signed 32-bit `int` goes through
`int_of_u32`.
-/

namespace Fountain

/-! ## Machine integer helpers -/

/-- Value of a 32-bit pattern read as a two's-complement `int` / `int32_t`. -/
def int_of_u32 (u : Nat) : Int :=
  if u % 2 ^ 32 < 2 ^ 31 then ((u % 2 ^ 32 : Nat) : Int)
  else ((u % 2 ^ 32 : Nat) : Int) - 2 ^ 32

/-- Conversion of an integer value to a 32-bit signed `int` (wraps modulo `2^32`). -/
def to_int32 (x : Int) : Int :=
  int_of_u32 (x % 2 ^ 32).toNat

/-- Conversion of an integer value to a `w`-bit unsigned pattern. -/
def to_unsigned (w : Nat) (x : Int) : Nat :=
  (x % 2 ^ w).toNat

/-! ## randgen.h -/

/-- The macro `RANDGEN_MAX`. -/
def RANDGEN_MAX : Int := 32767

/-- The struct `randgen_s`: `uint64_t next_seed; int result;`. -/
structure randgen_s where
  next_seed : Nat
  result : Int
  deriving DecidableEq, Repr

/-- The function `next_rand` of `randgen.h`.
`next` is computed in `uint64_t`; the quotient is cast to `unsigned int`
before the remainder is taken, and the remainder is stored in an `int`. -/
def next_rand (seed : Nat) : randgen_s :=
  let next := (seed * 1103515245 + 12345) % 2 ^ 64
  { next_seed := next
    result := int_of_u32 (((next / 65536) % 2 ^ 32) % 32768) }

/-- Draws obtained by chaining `next_rand` `n` times, each call being fed the
`next_seed` of the previous one. -/
def chain_draws : Nat → Nat → List Int
  | 0, _ => []
  | n + 1, seed => (next_rand seed).result :: chain_draws n (next_rand seed).next_seed

/-! ## server.c : constants, types and the lookup table -/

/-- The macro `BUF_LEN`. -/
def BUF_LEN : Nat := 512

/-- The macro `BURST_SIZE`. -/
def BURST_SIZE : Nat := 1000

/-- Constants that `server.c` takes from headers which are absent from the
available sources (`fountainprotocol.h`, `errors.h`, `networking.h`), together
with the byte order of the host.  They are parameters of the embedding.
`FILENAME_LEN` is `sizeof info.filename`. -/
structure Consts where
  MAGIC_REQUEST_INFO : Int
  MAGIC_WAITING : Int
  MAGIC_INFO : Int
  SOCKET_ERROR : Int
  ERR_FOPEN : Int
  ERR_MEM : Int
  ERR_PACKING : Int
  FILENAME_LEN : Nat
  big_endian_host : Bool

/-- An internet socket address (`struct sockaddr_in`), port and address only. -/
structure sockaddr_in where
  sin_port : Nat
  sin_addr : Nat
  deriving DecidableEq, Repr

/-- The struct `client_s`. -/
structure client_s where
  address : sockaddr_in
  deriving DecidableEq, Repr

/-- The two functions a `msg_despatch_f` pointer of the table can point to. -/
inductive Handler
  | send_info
  | send_block_burst
  deriving DecidableEq, Repr

/-- The struct `msg_lookup`; a `NULL` despatcher is `none`. -/
structure msg_lookup where
  id : Int
  magic : Int
  despatcher : Option Handler
  deriving DecidableEq, Repr

/-- The static array `lookup_table`; the magic column has type `int32_t`. -/
def lookup_table (c : Consts) : List msg_lookup :=
  [ { id := 0, magic := 0, despatcher := none },
    { id := 1, magic := to_int32 c.MAGIC_REQUEST_INFO, despatcher := some Handler.send_info },
    { id := 2, magic := to_int32 c.MAGIC_WAITING, despatcher := some Handler.send_block_burst },
    { id := 3, magic := -1, despatcher := none } ]

/-! ## server.c : observable events and outcomes -/

/-- Observable actions of the server.  The index carried by `sendto` and
`fmake_fountain` is the iteration of the burst loop that issues the call
(`0` for the single `sendto` of `send_info`). -/
inductive Event
  | sendto (i : Nat) (dest : sockaddr_in) (data : List Nat)
  | fmake_fountain (i : Nat)
  | handle_error (code : Int)
  | despatch (index : Nat) (h : Handler) (client : client_s)
  | log_unknown (request_type : Int)
  | fclose
  | close_connection
  deriving DecidableEq, Repr

/-- Ways in which an execution leaves defined behaviour. -/
inductive Fault
  | division_by_zero
  | table_bounds
  | null_call
  deriving DecidableEq, Repr

/-- How a call ends: it returns an `int`, the process is terminated inside
`handle_error`, or the behaviour is undefined. -/
inductive Outcome
  | returned (v : Int)
  | exited
  | undefined (f : Fault)
  deriving DecidableEq, Repr

/-- What the environment answers to the calls made while one request is
served.  `stat` is the result of `stat(filename, &st)` (`some st_size`, or
`none` when it fails), `fopen` tells whether the file opens, `fmake_fountain i`
whether the encoder returns a fountain in iteration `i`, `pack_fountain i` is
the packed buffer of that fountain (empty: length `0`), `sendto i` the return
value of the `sendto` call of iteration `i`, and `handle_error code` tells
whether `handle_error` (declared in `errors.h`, defined outside the available
sources) returns to its caller (`true`) or terminates the process. -/
structure World where
  stat : Option Int
  fopen : Bool
  fmake_fountain : Nat → Bool
  pack_fountain : Nat → List Nat
  sendto : Nat → Int
  handle_error : Int → Bool

/-! ## server.c : recvd_hello -/

/-- Result of `recvfrom`: a negative return value, or a datagram with its
bytes and the sender address. -/
inductive Recvfrom
  | error
  | datagram (data : List Nat) (remote_addr : sockaddr_in)
  deriving DecidableEq, Repr

/-- The local array `buf` after `memset` and `recvfrom`: at most `BUF_LEN`
received bytes, the rest zero. -/
def recv_buf (data : List Nat) : List Nat :=
  (data.take BUF_LEN).map (fun b => b % 256) ++ List.replicate (BUF_LEN - data.length) 0

/-- Modelled from the spec: `packet_s` (declared in `fountainprotocol.h`, which is
not among the available sources) starts with the 4-byte magic, so that
`ntohl(packet->magic)` is the big-endian value of the first four bytes of the
buffer. -/
def ntohl_packet_magic (buf : List Nat) : Nat :=
  buf.getD 0 0 * 2 ^ 24 + buf.getD 1 0 * 2 ^ 16 + buf.getD 2 0 * 2 ^ 8 + buf.getD 3 0

/-- The `int magic` computed by `recvd_hello` from a datagram. -/
def datagram_magic (data : List Nat) : Int :=
  int_of_u32 (ntohl_packet_magic (recv_buf data))

/-- Result of the table scan: a row matched, the sentinel stopped the scan,
or the scan read a row outside the table. -/
inductive ScanRet
  | found (i : Nat)
  | not_found
  | outside_table
  deriving DecidableEq, Repr

/-- A scan result together with the indices of the rows whose magic was read. -/
structure Scan where
  ret : ScanRet
  reads : List Nat
  deriving DecidableEq, Repr

/-- The loop `for (int i = 1; lookup_table[i].magic != -1; i++)` of
`recvd_hello`, started at index `i` on the rows from that index on. -/
def scan_rows (magic : Int) : List msg_lookup → Nat → Scan
  | [], i => { ret := ScanRet.outside_table, reads := [i] }
  | row :: rest, i =>
    if row.magic ≠ -1 then
      if magic = row.magic then { ret := ScanRet.found i, reads := [i] }
      else
        let r := scan_rows magic rest (i + 1)
        { ret := r.ret, reads := i :: r.reads }
    else { ret := ScanRet.not_found, reads := [i] }

/-- What `recvd_hello` leaves behind: its return value (`none` when the scan
left the table), the client record and the table rows read. -/
structure hello_result where
  ret : Option Int
  new_client : client_s
  reads : List Nat
  deriving DecidableEq, Repr

/-- The function `recvd_hello`. -/
def recvd_hello (c : Consts) (rx : Recvfrom) (new_client : client_s) : hello_result :=
  match rx with
  | Recvfrom.error => { ret := some (-1), new_client := new_client, reads := [] }
  | Recvfrom.datagram data remote_addr =>
    let magic := datagram_magic data
    let r := scan_rows magic ((lookup_table c).drop 1) 1
    match r.ret with
    | ScanRet.found i =>
      { ret := some (i : Int), new_client := { address := remote_addr }, reads := r.reads }
    | ScanRet.not_found => { ret := some 0, new_client := new_client, reads := r.reads }
    | ScanRet.outside_table => { ret := none, new_client := new_client, reads := r.reads }

/-! ## server.c : file metadata -/

/-- The function `filesize_in_bytes`: `st.st_size` converted to the `int`
return type when `stat` succeeds, `-1` otherwise. -/
def filesize_in_bytes (st : Option Int) : Int :=
  match st with
  | some st_size => to_int32 st_size
  | none => -1

/-- The function `fsize_in_blocks`.  `/` and `%` are the truncating C
operators; a zero divisor is undefined behaviour (`none`).  The sum
`filesize / blk_size + 1` is only evaluated when the remainder is not zero. -/
def fsize_in_blocks (st : Option Int) (blk_size : Int) : Option Int :=
  let filesize := filesize_in_bytes st
  if filesize < 0 then some filesize
  else if blk_size = 0 then none
  else if Int.tmod filesize blk_size ≠ 0 then some (Int.tdiv filesize blk_size + 1)
  else some (Int.tdiv filesize blk_size)

/-- Modelled from the spec: the struct `file_info_s` is declared in
`fountainprotocol.h`, which is not among the available sources.  Its fields
are, in this order, `magic` (32 bits), `blk_size` (16 bits), `num_blocks`
(16 bits), `filesize` (32 bits) and the character array `filename`.  Numeric
fields hold bit patterns. -/
structure file_info_s where
  magic : Nat
  blk_size : Nat
  num_blocks : Nat
  filesize : Nat
  filename : List Nat
  deriving DecidableEq, Repr

/-- The library function `htonl`: identity on a big-endian host, byte swap on
a little-endian one. -/
def htonl (big_endian : Bool) (x : Nat) : Nat :=
  if big_endian then x % 2 ^ 32
  else (x % 256) * 2 ^ 24 + (x / 2 ^ 8 % 256) * 2 ^ 16 + (x / 2 ^ 16 % 256) * 2 ^ 8
    + x / 2 ^ 24 % 256

/-- The library function `htons`. -/
def htons (big_endian : Bool) (x : Nat) : Nat :=
  if big_endian then x % 2 ^ 16 else (x % 256) * 2 ^ 8 + x / 2 ^ 8 % 256

/-- The function `file_info_order_for_network`. -/
def file_info_order_for_network (big_endian : Bool) (info : file_info_s) : file_info_s :=
  { info with
    magic := htonl big_endian info.magic
    blk_size := htons big_endian info.blk_size
    num_blocks := htons big_endian info.num_blocks
    filesize := htonl big_endian info.filesize }

/-- Bytes of a 32-bit object in the memory of the host, lowest address first. -/
def mem_u32 (big_endian : Bool) (x : Nat) : List Nat :=
  if big_endian then [x / 2 ^ 24 % 256, x / 2 ^ 16 % 256, x / 2 ^ 8 % 256, x % 256]
  else [x % 256, x / 2 ^ 8 % 256, x / 2 ^ 16 % 256, x / 2 ^ 24 % 256]

/-- Bytes of a 16-bit object in the memory of the host, lowest address first. -/
def mem_u16 (big_endian : Bool) (x : Nat) : List Nat :=
  if big_endian then [x / 2 ^ 8 % 256, x % 256] else [x % 256, x / 2 ^ 8 % 256]

/-- Modelled from the spec: the object representation of `file_info_s` that
`sendto` reads through `(char*)&info`.  The numeric fields sit at offsets 0, 4,
6 and 8, each at its natural alignment, so there is no padding between them,
and the filename array follows at offset 12. -/
def file_info_mem (big_endian : Bool) (info : file_info_s) : List Nat :=
  mem_u32 big_endian info.magic ++ mem_u16 big_endian info.blk_size
    ++ mem_u16 big_endian info.num_blocks ++ mem_u32 big_endian info.filesize
    ++ info.filename

/-- The array `info.filename` after the zero initialisation and
`strncpy(info.filename, filename, sizeof info.filename - 1)`: the characters of
the string up to its terminator, at most `n - 1` of them, then zeros up to the
size `n` of the array. -/
def strncpy_filename (n : Nat) (filename : List Nat) : List Nat :=
  let chars := ((filename.map (fun b => b % 256)).takeWhile (fun b => b ≠ 0)).take (n - 1)
  chars ++ List.replicate (n - chars.length) 0

/-- Most significant byte first encoding of a 32-bit value. -/
def be32 (x : Nat) : List Nat :=
  [x / 2 ^ 24 % 256, x / 2 ^ 16 % 256, x / 2 ^ 8 % 256, x % 256]

/-- Most significant byte first encoding of a 16-bit value. -/
def be16 (x : Nat) : List Nat :=
  [x / 2 ^ 8 % 256, x % 256]

/-! ## server.c : the two despatchers -/

/-- The function `send_info`, called with the current value of the static
variable `blk_size`. -/
def send_info (c : Consts) (w : World) (blk_size : Int) (client : client_s)
    (filename : List Nat) : Outcome × List Event :=
  match fsize_in_blocks w.stat blk_size with
  | none => (Outcome.undefined Fault.division_by_zero, [])
  | some num_blocks =>
    let info : file_info_s :=
      { magic := to_unsigned 32 c.MAGIC_INFO
        blk_size := to_unsigned 16 blk_size
        num_blocks := to_unsigned 16 num_blocks
        filesize := to_unsigned 32 (filesize_in_bytes w.stat)
        filename := strncpy_filename c.FILENAME_LEN filename }
    let info := file_info_order_for_network c.big_endian_host info
    let bytes_sent := w.sendto 0
    let ev := [Event.sendto 0 client.address (file_info_mem c.big_endian_host info)]
    if bytes_sent = c.SOCKET_ERROR then (Outcome.returned c.SOCKET_ERROR, ev)
    else (Outcome.returned 0, ev)

/-- The function `send_fountain`, for the fountain made in iteration `i`. -/
def send_fountain (c : Consts) (w : World) (client : client_s) (i : Nat) : Int × List Event :=
  let packet := w.pack_fountain i
  if packet.length = 0 then (c.ERR_PACKING, [])
  else
    let bytes_sent := w.sendto i
    let ev := [Event.sendto i client.address packet]
    if bytes_sent = c.SOCKET_ERROR then (c.SOCKET_ERROR, ev) else (0, ev)

/-- The loop `for (int i = 0; i < BURST_SIZE; i++)` of `send_block_burst`
with `n` iterations left, followed by the `fclose` and `return 0` after it. -/
def burst_loop (c : Consts) (w : World) (client : client_s) : Nat → Nat → Outcome × List Event
  | 0, _ => (Outcome.returned 0, [Event.fclose])
  | n + 1, i =>
    if w.fmake_fountain i then
      let sent := send_fountain c w client i
      if sent.1 < 0 then
        if w.handle_error sent.1 then
          let rest := burst_loop c w client n (i + 1)
          (rest.1, Event.fmake_fountain i :: sent.2 ++ Event.handle_error sent.1 :: rest.2)
        else
          (Outcome.exited, Event.fmake_fountain i :: sent.2 ++ [Event.handle_error sent.1])
      else
        let rest := burst_loop c w client n (i + 1)
        (rest.1, Event.fmake_fountain i :: sent.2 ++ rest.2)
    else (Outcome.returned c.ERR_MEM, [Event.fmake_fountain i])

/-- The function `send_block_burst`. -/
def send_block_burst (c : Consts) (w : World) (client : client_s) : Outcome × List Event :=
  if w.fopen then burst_loop c w client BURST_SIZE 0
  else (Outcome.returned c.ERR_FOPEN, [])

/-! ## server.c : the request loop of main -/

/-- The variables the request loop of `main` works on. -/
structure server_state where
  client : client_s
  blk_size : Int
  error : Int
  deriving DecidableEq, Repr

/-- Where control goes after one pass of the request loop: back to
`recvd_hello` (`next`), out of the loop to `close_connection` and `return 0`
(`leave`), or the pass does not complete. -/
inductive Flow
  | next
  | leave
  | exited
  | undefined (f : Fault)
  deriving DecidableEq, Repr

/-- One pass of the loop: control flow, variables and events. -/
structure pass_result where
  flow : Flow
  state : server_state
  events : List Event
  deriving DecidableEq, Repr

/-- A call through a function pointer of the table. -/
def call_handler (c : Consts) (w : World) (blk_size : Int) (filename : List Nat)
    (h : Handler) (client : client_s) : Outcome × List Event :=
  match h with
  | Handler.send_info => send_info c w blk_size client filename
  | Handler.send_block_burst => send_block_burst c w client

/-- The statement
`if ((error = lookup_table[request_type].despatcher(client, filename)) < 0) handle_error(error, NULL);`
of `main`. -/
def call_despatcher (c : Consts) (w : World) (filename : List Nat) (st : server_state)
    (request_type : Nat) : pass_result :=
  match (lookup_table c).get? request_type with
  | none => { flow := Flow.undefined Fault.table_bounds, state := st, events := [] }
  | some row =>
    match row.despatcher with
    | none => { flow := Flow.undefined Fault.null_call, state := st, events := [] }
    | some h =>
      let r := call_handler c w st.blk_size filename h st.client
      let ev := Event.despatch request_type h st.client :: r.2
      match r.1 with
      | Outcome.returned error =>
        if error < 0 then
          if w.handle_error error then
            { flow := Flow.next, state := { st with error := error },
              events := ev ++ [Event.handle_error error] }
          else
            { flow := Flow.exited, state := { st with error := error },
              events := ev ++ [Event.handle_error error] }
        else { flow := Flow.next, state := { st with error := error }, events := ev }
      | Outcome.exited => { flow := Flow.exited, state := st, events := ev }
      | Outcome.undefined f => { flow := Flow.undefined f, state := st, events := ev }

/-- One pass of `while ((request_type = recvd_hello(&client)) >= 0) { ... }`. -/
def main_pass (c : Consts) (filename : List Nat) (st : server_state) (rx : Recvfrom)
    (w : World) : pass_result :=
  let hello := recvd_hello c rx st.client
  match hello.ret with
  | none => { flow := Flow.undefined Fault.table_bounds, state := st, events := [] }
  | some request_type =>
    let st1 : server_state := { st with client := hello.new_client }
    if request_type ≥ 0 then
      if request_type ≠ 0 then call_despatcher c w filename st1 request_type.toNat
      else { flow := Flow.next, state := st1, events := [Event.log_unknown request_type] }
    else { flow := Flow.leave, state := st1, events := [Event.close_connection] }

/-- The calls made through the lookup table, in order. -/
def despatches : List Event → List (Nat × Handler × client_s)
  | [] => []
  | Event.despatch i h cl :: rest => (i, h, cl) :: despatches rest
  | _ :: rest => despatches rest

/-- The datagrams handed to `sendto`, in order: destination and bytes. -/
def packets_sent : List Event → List (sockaddr_in × List Nat)
  | [] => []
  | Event.sendto _ dest data :: rest => (dest, data) :: packets_sent rest
  | _ :: rest => packets_sent rest

/-- The iterations in which the encoder `fmake_fountain` was called, in order. -/
def encoder_calls : List Event → List Nat
  | [] => []
  | Event.fmake_fountain i :: rest => i :: encoder_calls rest
  | _ :: rest => encoder_calls rest

/-! ## Reference traces and sample inputs -/

/-- Events of one pass of the burst loop in which the encoder returned a
fountain and `handle_error`, if called, returned. -/
def burst_pass_events (c : Consts) (w : World) (client : client_s) (j : Nat) : List Event :=
  Event.fmake_fountain j :: (send_fountain c w client j).2
    ++ (if (send_fountain c w client j).1 < 0
        then [Event.handle_error (send_fountain c w client j).1] else [])

/-- The burst after a failed send of packet `k` is aborted and the despatcher
returns: no encoder call and no `sendto` of a later iteration, and
`send_block_burst` returns to `main`. -/
def burst_aborted_after (c : Consts) (w : World) (client : client_s) (k : Nat) : Prop :=
  (∀ j, k < j → Event.fmake_fountain j ∉ (send_block_burst c w client).2)
  ∧ (∀ j dest data, k < j → Event.sendto j dest data ∉ (send_block_burst c w client).2)
  ∧ ∃ v, (send_block_burst c w client).1 = Outcome.returned v

/-- Sample values for the constants of the absent headers. -/
def sample_consts : Consts :=
  { MAGIC_REQUEST_INFO := 0x46544E31
    MAGIC_WAITING := 0x46544E32
    MAGIC_INFO := 0x01020304
    SOCKET_ERROR := -1
    ERR_FOPEN := -2
    ERR_MEM := -3
    ERR_PACKING := -4
    FILENAME_LEN := 256
    big_endian_host := false }

/-- A sample client. -/
def sample_client : client_s := { address := { sin_port := 40000, sin_addr := 0x7F000001 } }

/-- A sample state of the request loop. -/
def sample_state : server_state :=
  { client := { address := { sin_port := 0, sin_addr := 0 } }, blk_size := 128, error := 0 }

/-- An environment in which every call succeeds. -/
def world_all_ok : World :=
  { stat := some 300
    fopen := true
    fmake_fountain := fun _ => true
    pack_fountain := fun i => [i % 256]
    sendto := fun _ => 1
    handle_error := fun _ => true }

/-- An environment in which the `sendto` of the first packet of a burst fails
and every other call succeeds; the argument tells whether `handle_error`
returns. -/
def world_first_send_fails (handle_error_returns : Bool) : World :=
  { stat := some 300
    fopen := true
    fmake_fountain := fun _ => true
    pack_fountain := fun i => [i % 256]
    sendto := fun i => if i = 0 then -1 else 1
    handle_error := fun _ => handle_error_returns }

/-! ## Auxiliary lemmas -/

theorem int_of_u32_small (u : Nat) (h : u < 2 ^ 31) : int_of_u32 u = (u : Int) := by
  have h1 : u % 2 ^ 32 = u := Nat.mod_eq_of_lt (by omega)
  unfold int_of_u32
  rw [h1, if_pos h]

theorem next_rand_result_eq (s : Nat) :
    (next_rand s).result = (((s * 1103515245 + 12345) % 2 ^ 64 / 65536 % 32768 : Nat) : Int) := by
  show int_of_u32 ((((s * 1103515245 + 12345) % 2 ^ 64 / 65536) % 2 ^ 32) % 32768) = _
  have h : (((s * 1103515245 + 12345) % 2 ^ 64 / 65536) % 2 ^ 32) % 32768
      = (s * 1103515245 + 12345) % 2 ^ 64 / 65536 % 32768 := by omega
  rw [h]
  exact int_of_u32_small _ (by omega)

theorem to_int32_of_range (x : Int) (h0 : 0 ≤ x) (h1 : x < 2 ^ 31) : to_int32 x = x := by
  unfold to_int32 int_of_u32
  have hx : x % 2 ^ 32 = x := Int.emod_eq_of_lt h0 (by omega)
  rw [hx]
  have h2 : x.toNat % 2 ^ 32 = x.toNat := Nat.mod_eq_of_lt (by omega)
  rw [h2]
  have h3 : x.toNat < 2 ^ 31 := by omega
  rw [if_pos h3]
  omega

/-- Ceiling of a quotient of integers with positive divisor. -/
theorem ceil_div_eq (f b : Int) (hb : 0 < b) :
    Int.ceil ((f : ℚ) / (b : ℚ)) = if f % b = 0 then f / b else f / b + 1 := by
  have hbq : (0 : ℚ) < (b : ℚ) := by exact_mod_cast hb
  have hdm : b * (f / b) + f % b = f := Int.ediv_add_emod f b
  have hr0 : 0 ≤ f % b := Int.emod_nonneg f (ne_of_gt hb)
  have hr1 : f % b < b := Int.emod_lt_of_pos f hb
  have hq : (f : ℚ) = (b : ℚ) * ((f / b : Int) : ℚ) + ((f % b : Int) : ℚ) := by
    exact_mod_cast hdm.symm
  split
  · rename_i h
    rw [Int.ceil_eq_iff]
    rw [h] at hq
    constructor
    · rw [lt_div_iff₀ hbq]
      have : (((f / b : Int) : ℚ) - 1) * b < (f / b : Int) * b := by
        nlinarith
      push_cast at hq ⊢
      nlinarith
    · rw [div_le_iff₀ hbq]
      push_cast at hq ⊢
      nlinarith
  · rename_i h
    rw [Int.ceil_eq_iff]
    have hr0q : (0 : ℚ) < ((f % b : Int) : ℚ) := by
      have : 0 < f % b := lt_of_le_of_ne hr0 (Ne.symm h)
      exact_mod_cast this
    have hr1q : ((f % b : Int) : ℚ) < (b : ℚ) := by exact_mod_cast hr1
    constructor
    · rw [lt_div_iff₀ hbq]
      push_cast at hq ⊢
      nlinarith
    · rw [div_le_iff₀ hbq]
      push_cast at hq ⊢
      nlinarith

theorem fsize_in_blocks_eq (st : Option Int) (b : Int)
    (hf : 0 ≤ filesize_in_bytes st) (hb : 0 < b) :
    fsize_in_blocks st b
      = some (if filesize_in_bytes st % b = 0 then filesize_in_bytes st / b
              else filesize_in_bytes st / b + 1) := by
  unfold fsize_in_blocks
  simp only []
  rw [if_neg (not_lt.mpr hf), if_neg (ne_of_gt hb),
    Int.tmod_eq_emod hf (le_of_lt hb), Int.tdiv_eq_ediv hf (le_of_lt hb)]
  by_cases h : filesize_in_bytes st % b = 0
  · simp [h]
  · simp [h]

theorem bytes2 (r q : Nat) (hr : r < 256) (hq : q < 256) :
    (r * 256 + q) % 256 = q ∧ (r * 256 + q) / 256 % 256 = r := by
  constructor <;> omega

theorem bytes4 (a b c d : Nat) (ha : a < 256) (hb : b < 256) (hc : c < 256) (hd : d < 256) :
    (a * 16777216 + b * 65536 + c * 256 + d) % 256 = d
    ∧ (a * 16777216 + b * 65536 + c * 256 + d) / 256 % 256 = c
    ∧ (a * 16777216 + b * 65536 + c * 256 + d) / 65536 % 256 = b
    ∧ (a * 16777216 + b * 65536 + c * 256 + d) / 16777216 % 256 = a := by
  refine ⟨?_, ?_, ?_, ?_⟩ <;> omega

theorem mem_u16_htons (be : Bool) (x : Nat) : mem_u16 be (htons be x) = be16 x := by
  cases be
  · have h := bytes2 (x % 256) (x / 256 % 256) (Nat.mod_lt _ (by norm_num))
      (Nat.mod_lt _ (by norm_num))
    simp only [mem_u16, htons, be16, Bool.false_eq_true, if_false, Nat.reducePow]
    rw [h.1, h.2]
  · simp only [mem_u16, htons, be16, if_true, Nat.reducePow]
    refine congrArg₂ _ ?_ (congrArg₂ _ ?_ rfl) <;> omega

theorem mem_u32_htonl (be : Bool) (x : Nat) : mem_u32 be (htonl be x) = be32 x := by
  cases be
  · have h := bytes4 (x % 256) (x / 256 % 256) (x / 65536 % 256) (x / 16777216 % 256)
      (Nat.mod_lt _ (by norm_num)) (Nat.mod_lt _ (by norm_num))
      (Nat.mod_lt _ (by norm_num)) (Nat.mod_lt _ (by norm_num))
    simp only [mem_u32, htonl, be32, Bool.false_eq_true, if_false, Nat.reducePow]
    rw [h.1, h.2.1, h.2.2.1, h.2.2.2]
  · simp only [mem_u32, htonl, be32, if_true, Nat.reducePow]
    refine congrArg₂ _ ?_ (congrArg₂ _ ?_ (congrArg₂ _ ?_ (congrArg₂ _ ?_ rfl))) <;> omega

theorem file_info_wire (be : Bool) (info : file_info_s) :
    file_info_mem be (file_info_order_for_network be info)
      = be32 info.magic ++ be16 info.blk_size ++ be16 info.num_blocks
          ++ be32 info.filesize ++ info.filename := by
  simp only [file_info_mem, file_info_order_for_network, mem_u32_htonl, mem_u16_htons]

theorem send_info_events (c : Consts) (w : World) (blk_size : Int) (client : client_s)
    (filename : List Nat) (num_blocks : Int)
    (h : fsize_in_blocks w.stat blk_size = some num_blocks) :
    (send_info c w blk_size client filename).2
      = [Event.sendto 0 client.address
          (be32 (to_unsigned 32 c.MAGIC_INFO) ++ be16 (to_unsigned 16 blk_size)
            ++ be16 (to_unsigned 16 num_blocks)
            ++ be32 (to_unsigned 32 (filesize_in_bytes w.stat))
            ++ strncpy_filename c.FILENAME_LEN filename)] := by
  unfold send_info
  rw [h]
  simp only [file_info_wire]
  split <;> rfl

theorem packets_sent_single (i : Nat) (a : sockaddr_in) (d : List Nat) :
    packets_sent [Event.sendto i a d] = [(a, d)] := by
  simp only [packets_sent]

theorem ex_bytes (filename : List Nat) :
    (be32 0x01020304 ++ be16 128 ++ be16 3 ++ be32 300 ++ filename).take 12
      = [0x01, 0x02, 0x03, 0x04, 0x00, 0x80, 0x00, 0x03, 0x00, 0x00, 0x01, 0x2C] := by
  simp only [be32, be16, Nat.reducePow, Nat.reduceDiv, Nat.reduceMod, List.cons_append,
      List.nil_append, List.take_succ_cons, List.take_zero]

theorem scan_table (c : Consts) (m : Int) :
    scan_rows m ((lookup_table c).drop 1) 1
      = if to_int32 c.MAGIC_REQUEST_INFO ≠ -1 then
          if m = to_int32 c.MAGIC_REQUEST_INFO then { ret := ScanRet.found 1, reads := [1] }
          else if to_int32 c.MAGIC_WAITING ≠ -1 then
            if m = to_int32 c.MAGIC_WAITING then { ret := ScanRet.found 2, reads := [1, 2] }
            else { ret := ScanRet.not_found, reads := [1, 2, 3] }
          else { ret := ScanRet.not_found, reads := [1, 2] }
        else { ret := ScanRet.not_found, reads := [1] } := by
  simp only [lookup_table, List.drop_succ_cons, List.drop_zero, scan_rows]
  split
  · split
    · rfl
    · split
      · split
        · rfl
        · simp
      · rfl
  · rfl

theorem despatches_append (xs ys : List Event) :
    despatches (xs ++ ys) = despatches xs ++ despatches ys := by
  induction xs with
  | nil => rfl
  | cons e xs ih => cases e <;> simp [despatches, ih]

theorem recvd_hello_unknown (c : Consts) (data : List Nat) (addr : sockaddr_in)
    (client : client_s)
    (h1 : datagram_magic data ≠ to_int32 c.MAGIC_REQUEST_INFO)
    (h2 : datagram_magic data ≠ to_int32 c.MAGIC_WAITING) :
    (recvd_hello c (Recvfrom.datagram data addr) client).ret = some 0
    ∧ (recvd_hello c (Recvfrom.datagram data addr) client).new_client = client := by
  simp only [recvd_hello, scan_table]
  split_ifs <;> simp

theorem recvd_hello_ret (c : Consts) (rx : Recvfrom) (client : client_s) :
    ((recvd_hello c rx client).ret = some (-1) ∧ (recvd_hello c rx client).reads = []
      ∨ (recvd_hello c rx client).ret = some 0
          ∧ ((recvd_hello c rx client).reads = [1] ∨ (recvd_hello c rx client).reads = [1, 2]
              ∨ (recvd_hello c rx client).reads = [1, 2, 3])
      ∨ (recvd_hello c rx client).ret = some 1 ∧ (recvd_hello c rx client).reads = [1]
      ∨ (recvd_hello c rx client).ret = some 2 ∧ (recvd_hello c rx client).reads = [1, 2]) := by
  cases rx with
  | error => left; exact ⟨rfl, rfl⟩
  | datagram data addr =>
    simp only [recvd_hello, scan_table]
    split_ifs <;> simp

theorem encoder_calls_append (xs ys : List Event) :
    encoder_calls (xs ++ ys) = encoder_calls xs ++ encoder_calls ys := by
  induction xs with
  | nil => rfl
  | cons e xs ih => cases e <;> simp [encoder_calls, ih]

theorem packets_sent_append (xs ys : List Event) :
    packets_sent (xs ++ ys) = packets_sent xs ++ packets_sent ys := by
  induction xs with
  | nil => rfl
  | cons e xs ih => cases e <;> simp [packets_sent, ih]

theorem send_fountain_cases (c : Consts) (w : World) (client : client_s) (i : Nat) :
    (send_fountain c w client i).2 = []
    ∨ (send_fountain c w client i).2 = [Event.sendto i client.address (w.pack_fountain i)] := by
  simp only [send_fountain]
  split_ifs <;> simp

theorem send_fountain_ok (c : Consts) (w : World) (client : client_s) (i : Nat)
    (hp : (w.pack_fountain i).length ≠ 0) (hs : w.sendto i ≠ c.SOCKET_ERROR) :
    send_fountain c w client i
      = (0, [Event.sendto i client.address (w.pack_fountain i)]) := by
  unfold send_fountain
  simp only [if_neg hp, if_neg hs]

theorem send_fountain_packed (c : Consts) (w : World) (client : client_s) (i : Nat)
    (hp : (w.pack_fountain i).length ≠ 0) :
    (send_fountain c w client i).2 = [Event.sendto i client.address (w.pack_fountain i)] := by
  unfold send_fountain
  simp only [if_neg hp]
  split_ifs <;> rfl

/-- The burst loop runs all its passes when every encoder call succeeds and
`handle_error` returns whenever it is called. -/
theorem burst_loop_runs (c : Consts) (w : World) (client : client_s) (n : Nat) :
    ∀ i : Nat,
      (∀ j, i ≤ j → j < i + n → w.fmake_fountain j = true) →
      (∀ j, i ≤ j → j < i + n → (send_fountain c w client j).1 < 0 →
        w.handle_error (send_fountain c w client j).1 = true) →
      burst_loop c w client n i
        = (Outcome.returned 0,
            (List.range' i n).flatMap (burst_pass_events c w client) ++ [Event.fclose]) := by
  induction n with
  | zero => intro i _ _; rfl
  | succ n ih =>
    intro i henc herr
    have hi := henc i (le_refl i) (by omega)
    have hrest := ih (i + 1) (fun j h1 h2 => henc j (by omega) (by omega))
      (fun j h1 h2 => herr j (by omega) (by omega))
    rw [List.range'_succ, List.flatMap_cons]
    unfold burst_loop
    simp only [if_pos hi]
    by_cases hneg : (send_fountain c w client i).1 < 0
    · have hh := herr i (le_refl i) (by omega) hneg
      simp only [if_pos hneg, if_pos hh, hrest, burst_pass_events, List.cons_append,
        List.append_assoc, List.singleton_append, List.nil_append]
    · simp only [if_neg hneg, hrest, burst_pass_events, List.cons_append,
        List.append_assoc, List.append_nil, List.nil_append]

theorem encoder_calls_send_fountain (c : Consts) (w : World) (client : client_s) (i : Nat) :
    encoder_calls (send_fountain c w client i).2 = [] := by
  rcases send_fountain_cases c w client i with h | h <;> rw [h] <;> rfl

theorem despatches_send_fountain (c : Consts) (w : World) (client : client_s) (i : Nat) :
    despatches (send_fountain c w client i).2 = [] := by
  rcases send_fountain_cases c w client i with h | h <;> rw [h] <;> rfl

theorem encoder_calls_pass (c : Consts) (w : World) (client : client_s) (j : Nat) :
    encoder_calls (burst_pass_events c w client j) = [j] := by
  unfold burst_pass_events
  rw [List.cons_append]
  simp only [encoder_calls, encoder_calls_append, encoder_calls_send_fountain]
  split_ifs <;> rfl

theorem encoder_calls_trace (c : Consts) (w : World) (client : client_s) (n : Nat) :
    ∀ i : Nat, encoder_calls ((List.range' i n).flatMap (burst_pass_events c w client)
        ++ [Event.fclose]) = List.range' i n := by
  induction n with
  | zero => intro i; rfl
  | succ n ih =>
    intro i
    rw [List.range'_succ, List.flatMap_cons, List.append_assoc, encoder_calls_append,
      encoder_calls_pass, ih (i + 1)]
    rfl

theorem packets_sent_trace_ok (c : Consts) (w : World) (client : client_s) (n : Nat) :
    ∀ i : Nat,
      (∀ j, i ≤ j → j < i + n →
        (w.pack_fountain j).length ≠ 0 ∧ w.sendto j ≠ c.SOCKET_ERROR) →
      packets_sent ((List.range' i n).flatMap (burst_pass_events c w client)
        ++ [Event.fclose])
        = (List.range' i n).map (fun j => (client.address, w.pack_fountain j)) := by
  induction n with
  | zero => intro i _; rfl
  | succ n ih =>
    intro i h
    have hi := h i (le_refl i) (by omega)
    rw [List.range'_succ, List.flatMap_cons, List.append_assoc, packets_sent_append,
      ih (i + 1) (fun j h1 h2 => h j (by omega) (by omega)), List.map_cons]
    unfold burst_pass_events
    rw [send_fountain_ok c w client i hi.1 hi.2]
    simp [packets_sent]

theorem mem_trace_of_mem_pass (c : Consts) (w : World) (client : client_s) (n i j : Nat)
    (e : Event) (h1 : i ≤ j) (h2 : j < i + n) (he : e ∈ burst_pass_events c w client j) :
    e ∈ (List.range' i n).flatMap (burst_pass_events c w client) ++ [Event.fclose] := by
  apply List.mem_append_left
  rw [List.mem_flatMap]
  exact ⟨j, List.mem_range'_1.mpr ⟨h1, h2⟩, he⟩

theorem despatches_burst_loop (c : Consts) (w : World) (client : client_s) (n : Nat) :
    ∀ i : Nat, despatches (burst_loop c w client n i).2 = [] := by
  induction n with
  | zero => intro i; rfl
  | succ n ih =>
    intro i
    unfold burst_loop
    simp only []
    split_ifs <;>
      simp [despatches, despatches_append, despatches_send_fountain, ih (i + 1)]

theorem despatches_call_handler (c : Consts) (w : World) (blk_size : Int)
    (filename : List Nat) (h : Handler) (client : client_s) :
    despatches (call_handler c w blk_size filename h client).2 = [] := by
  cases h with
  | send_info =>
    simp only [call_handler, send_info]
    split
    · rfl
    · split_ifs <;> rfl
  | send_block_burst =>
    simp only [call_handler, send_block_burst]
    split_ifs
    · exact despatches_burst_loop c w client BURST_SIZE 0
    · rfl

theorem burst_loop_exits (c : Consts) (w : World) (client : client_s) (n i : Nat)
    (henc : w.fmake_fountain i = true) (hneg : (send_fountain c w client i).1 < 0)
    (hexit : w.handle_error (send_fountain c w client i).1 = false) :
    (burst_loop c w client (n + 1) i).1 = Outcome.exited := by
  unfold burst_loop
  simp only [if_pos henc, if_pos hneg, hexit, Bool.false_eq_true, if_false]

theorem send_block_burst_open (c : Consts) (w : World) (client : client_s)
    (hopen : w.fopen = true) :
    send_block_burst c w client = burst_loop c w client BURST_SIZE 0 := by
  unfold send_block_burst
  rw [if_pos hopen]

theorem call_despatcher_burst (c : Consts) (w : World) (filename : List Nat)
    (st : server_state) (h : (send_block_burst c w st.client).1 = Outcome.returned 0) :
    (call_despatcher c w filename st 2).flow = Flow.next := by
  simp only [call_despatcher, lookup_table, List.get?, call_handler, h]
  rfl

theorem first_send_fails (b : Bool) :
    (send_fountain sample_consts (world_first_send_fails b) sample_client 0).1 < 0 := by
  cases b <;> decide

theorem burst_loop_defined (c : Consts) (w : World) (client : client_s) (n : Nat) :
    ∀ (i : Nat) (f : Fault), (burst_loop c w client n i).1 ≠ Outcome.undefined f := by
  induction n with
  | zero => intro i f h; exact Outcome.noConfusion h
  | succ n ih =>
    intro i f
    unfold burst_loop
    simp only []
    split_ifs
    · exact ih (i + 1) f
    · intro h; exact Outcome.noConfusion h
    · exact ih (i + 1) f
    · intro h; exact Outcome.noConfusion h

theorem call_handler_fault (c : Consts) (w : World) (blk_size : Int) (filename : List Nat)
    (h : Handler) (client : client_s) (f : Fault)
    (hf : (call_handler c w blk_size filename h client).1 = Outcome.undefined f) :
    f = Fault.division_by_zero := by
  cases h with
  | send_info =>
    simp only [call_handler, send_info] at hf
    split at hf
    · injection hf with hf
      exact hf.symm
    · split_ifs at hf
  | send_block_burst =>
    simp only [call_handler, send_block_burst] at hf
    split_ifs at hf
    exact absurd hf (burst_loop_defined c w client BURST_SIZE 0 f)

theorem call_despatcher_info (c : Consts) (w : World) (filename : List Nat)
    (st : server_state) :
    despatches (call_despatcher c w filename st 1).events
        = [(1, Handler.send_info, st.client)]
    ∧ packets_sent (call_despatcher c w filename st 1).events
        = packets_sent (send_info c w st.blk_size st.client filename).2
    ∧ ∀ f, (call_despatcher c w filename st 1).flow = Flow.undefined f →
        f = Fault.division_by_zero := by
  have hd := despatches_call_handler c w st.blk_size filename Handler.send_info st.client
  have hf := call_handler_fault c w st.blk_size filename Handler.send_info st.client
  simp only [call_despatcher, lookup_table, List.get?]
  simp only [call_handler] at hd hf ⊢
  generalize send_info c w st.blk_size st.client filename = r at hd hf ⊢
  obtain ⟨o, ev⟩ := r
  cases o with
  | returned v =>
    simp only []
    split_ifs <;>
      simp_all [despatches, despatches_append, packets_sent, packets_sent_append]
  | exited => simp_all [despatches, packets_sent]
  | undefined f => simp_all [despatches, packets_sent]

theorem call_despatcher_burst_events (c : Consts) (w : World) (filename : List Nat)
    (st : server_state) :
    despatches (call_despatcher c w filename st 2).events
        = [(2, Handler.send_block_burst, st.client)]
    ∧ ∀ f, (call_despatcher c w filename st 2).flow = Flow.undefined f →
        f = Fault.division_by_zero := by
  have hd := despatches_call_handler c w st.blk_size filename Handler.send_block_burst st.client
  have hf := call_handler_fault c w st.blk_size filename Handler.send_block_burst st.client
  simp only [call_despatcher, lookup_table, List.get?]
  simp only [call_handler] at hd hf ⊢
  generalize send_block_burst c w st.client = r at hd hf ⊢
  obtain ⟨o, ev⟩ := r
  cases o with
  | returned v =>
    simp only []
    split_ifs <;> simp_all [despatches, despatches_append]
  | exited => simp_all [despatches]
  | undefined f => simp_all [despatches]

theorem recvd_hello_info (c : Consts) (data : List Nat) (addr : sockaddr_in)
    (client : client_s)
    (hA : to_int32 c.MAGIC_REQUEST_INFO ≠ -1)
    (hm : datagram_magic data = to_int32 c.MAGIC_REQUEST_INFO) :
    (recvd_hello c (Recvfrom.datagram data addr) client).ret = some 1
    ∧ (recvd_hello c (Recvfrom.datagram data addr) client).new_client = { address := addr } := by
  simp only [recvd_hello, scan_table, hm, if_pos hA, if_true]
  exact ⟨rfl, trivial⟩

theorem recvd_hello_waiting (c : Consts) (data : List Nat) (addr : sockaddr_in)
    (client : client_s)
    (hA : to_int32 c.MAGIC_REQUEST_INFO ≠ -1) (hB : to_int32 c.MAGIC_WAITING ≠ -1)
    (hAB : to_int32 c.MAGIC_REQUEST_INFO ≠ to_int32 c.MAGIC_WAITING)
    (hm : datagram_magic data = to_int32 c.MAGIC_WAITING) :
    (recvd_hello c (Recvfrom.datagram data addr) client).ret = some 2
    ∧ (recvd_hello c (Recvfrom.datagram data addr) client).new_client = { address := addr } := by
  simp only [recvd_hello, scan_table, hm, if_pos hA, if_pos hB, if_neg (Ne.symm hAB), if_true]
  exact ⟨rfl, trivial⟩

theorem main_pass_of_ret (c : Consts) (filename : List Nat) (st : server_state)
    (rx : Recvfrom) (w : World) (n : Nat) (hn : n ≠ 0)
    (h : (recvd_hello c rx st.client).ret = some (n : Int)) :
    main_pass c filename st rx w
      = call_despatcher c w filename
          { st with client := (recvd_hello c rx st.client).new_client } n := by
  have h0 : (n : Int) ≥ 0 := Int.natCast_nonneg n
  have h1 : (n : Int) ≠ 0 := by exact_mod_cast hn
  simp only [main_pass, h, if_pos h0, if_pos h1, ne_eq, not_false_eq_true, Int.toNat_ofNat]

/-! ## The claims -/

/-- Claim C1: for every seed, `next_rand` returns
`next_seed = (seed * 1103515245 + 12345) mod 2^64` and
`result = (next_seed / 65536) mod 32768`; reducing the quotient to 32 bits
(the cast to `unsigned int`) before the remainder does not change it. -/
theorem next_rand_spec (s : Nat) :
    (next_rand s).next_seed = (s * 1103515245 + 12345) % 2 ^ 64
    ∧ (next_rand s).result
        = ((((next_rand s).next_seed / 65536) % 32768 : Nat) : Int)
    ∧ (((next_rand s).next_seed / 65536) % 2 ^ 32) % 32768
        = ((next_rand s).next_seed / 65536) % 32768 := by
  refine ⟨rfl, next_rand_result_eq s, ?_⟩
  omega

/-- Claim C2: for every seed the draw of `next_rand` satisfies
`0 <= result < 32768`, that is `result <= RANDGEN_MAX`. -/
theorem next_rand_draw_range (s : Nat) :
    0 ≤ (next_rand s).result ∧ (next_rand s).result < 32768
    ∧ (next_rand s).result ≤ RANDGEN_MAX := by
  rw [next_rand_result_eq]
  unfold RANDGEN_MAX
  omega

/-- Claim C3: two calls of `next_rand` on the same seed give the same
`(next_seed, result)`; the first `next_seed` from seed 0 is 12345 and five
chained draws from seed 0 are 0, 21468, 9988, 22117, 3498. -/
theorem next_rand_reproducible :
    (∀ (s : Nat) (r₁ r₂ : randgen_s), r₁ = next_rand s → r₂ = next_rand s → r₁ = r₂)
    ∧ (next_rand 0).next_seed = 12345
    ∧ chain_draws 5 0 = [0, 21468, 9988, 22117, 3498] := by
  refine ⟨fun s r₁ r₂ h₁ h₂ => h₁.trans h₂.symm, by decide, by decide⟩

/-- Claim C4 fails for file sizes that do not fit the `int` returned by
`filesize_in_bytes`: for a file of 2^31 + 300 bytes and block size 128 the
reported size is -2147483348 and `fsize_in_blocks` returns that negative value,
not the ceiling 16777219; for a file of 2^32 + 300 bytes it returns 3, not the
ceiling 33554435. -/
theorem fsize_in_blocks_large_file :
    (0 : Int) ≤ 2147483948 ∧ (0 : Int) < 128
    ∧ fsize_in_blocks (some 2147483948) 128 = some (-2147483348)
    ∧ Int.ceil (((2147483948 : Int) : ℚ) / ((128 : Int) : ℚ)) = 16777219
    ∧ fsize_in_blocks (some 2147483948) 128
        ≠ some (Int.ceil (((2147483948 : Int) : ℚ) / ((128 : Int) : ℚ)))
    ∧ fsize_in_blocks (some 4294967596) 128 = some 3
    ∧ Int.ceil (((4294967596 : Int) : ℚ) / ((128 : Int) : ℚ)) = 33554435
    ∧ fsize_in_blocks (some 4294967596) 128
        ≠ some (Int.ceil (((4294967596 : Int) : ℚ) / ((128 : Int) : ℚ))) := by
  have h1 : fsize_in_blocks (some 2147483948) 128 = some (-2147483348) := by decide
  have c1 : Int.ceil (((2147483948 : Int) : ℚ) / ((128 : Int) : ℚ)) = 16777219 := by
    rw [ceil_div_eq _ _ (by decide)]
    decide
  have h2 : fsize_in_blocks (some 4294967596) 128 = some 3 := by decide
  have c2 : Int.ceil (((4294967596 : Int) : ℚ) / ((128 : Int) : ℚ)) = 33554435 := by
    rw [ceil_div_eq _ _ (by decide)]
    decide
  refine ⟨by decide, by decide, h1, c1, ?_, h2, c2, ?_⟩
  · rw [h1, c1]
    decide
  · rw [h2, c2]
    decide

/-- Claim C4, amended: for every file size `f` with `0 <= f < 2^31`, the sizes
that fit the `int` returned by `filesize_in_bytes`, and every block size
`b > 0`, `fsize_in_blocks` returns a value (there is no division by zero) and
that value is the ceiling of `f / b`: `f / b` when `b` divides `f` and
`f / b + 1` otherwise; sizes 300 and 256 with block size 128 give 3 and 2. -/
theorem fsize_in_blocks_ceil (f b : Int) (hf : 0 ≤ f) (hint : f < 2 ^ 31) (hb : 0 < b) :
    fsize_in_blocks (some f) b = some (Int.ceil ((f : ℚ) / (b : ℚ)))
    ∧ (b ∣ f → fsize_in_blocks (some f) b = some (f / b))
    ∧ (¬ b ∣ f → fsize_in_blocks (some f) b = some (f / b + 1))
    ∧ fsize_in_blocks (some 300) 128 = some 3
    ∧ fsize_in_blocks (some 256) 128 = some 2 := by
  have hsize : filesize_in_bytes (some f) = f := to_int32_of_range f hf hint
  have hcode := fsize_in_blocks_eq (some f) b (by rw [hsize]; exact hf) hb
  rw [hsize] at hcode
  rw [hcode, ceil_div_eq _ _ hb]
  refine ⟨rfl, ?_, ?_, by decide, by decide⟩
  · intro h
    rw [if_pos (Int.emod_eq_zero_of_dvd h)]
  · intro h
    rw [if_neg (fun h0 => h (Int.dvd_of_emod_eq_zero h0))]

/-- Claim C4, amended, at file size 300 and block size 128. -/
theorem fsize_in_blocks_ceil_witness :
    (0 : Int) ≤ 300 ∧ (300 : Int) < 2 ^ 31 ∧ (0 : Int) < 128
    ∧ (fsize_in_blocks (some 300) 128
          = some (Int.ceil (((300 : Int) : ℚ) / ((128 : Int) : ℚ)))
      ∧ ((128 : Int) ∣ 300 → fsize_in_blocks (some 300) 128 = some (300 / 128))
      ∧ (¬ (128 : Int) ∣ 300 → fsize_in_blocks (some 300) 128 = some (300 / 128 + 1))
      ∧ fsize_in_blocks (some 300) 128 = some 3
      ∧ fsize_in_blocks (some 256) 128 = some 2) :=
  ⟨by decide, by decide, by decide,
    fsize_in_blocks_ceil 300 128 (by decide) (by decide) (by decide)⟩

/-- Claim C5: after `file_info_order_for_network`, on a host of either byte
order, the bytes of the record are magic (4 bytes), block size (2 bytes), block
count (2 bytes) and file size (4 bytes), each most significant byte first and
with nothing between them, followed by the filename bytes; this is the single
datagram `send_info` hands to `sendto`; and for magic `0x01020304`, block size
128, block count 3 and file size 300 the first twelve bytes are
`01 02 03 04 00 80 00 03 00 00 01 2C`. -/
theorem file_info_wire_format (be : Bool) (info : file_info_s) :
    file_info_mem be (file_info_order_for_network be info)
      = be32 info.magic ++ be16 info.blk_size ++ be16 info.num_blocks
          ++ be32 info.filesize ++ info.filename
    ∧ (∀ (c : Consts) (w : World) (blk_size : Int) (client : client_s) (filename : List Nat)
        (num_blocks : Int), fsize_in_blocks w.stat blk_size = some num_blocks →
        packets_sent (send_info c w blk_size client filename).2
          = [(client.address,
              be32 (to_unsigned 32 c.MAGIC_INFO) ++ be16 (to_unsigned 16 blk_size)
                ++ be16 (to_unsigned 16 num_blocks)
                ++ be32 (to_unsigned 32 (filesize_in_bytes w.stat))
                ++ strncpy_filename c.FILENAME_LEN filename)])
    ∧ (∀ filename : List Nat,
        (file_info_mem be (file_info_order_for_network be
            { magic := 0x01020304, blk_size := 128, num_blocks := 3, filesize := 300,
              filename := filename })).take 12
          = [0x01, 0x02, 0x03, 0x04, 0x00, 0x80, 0x00, 0x03, 0x00, 0x00, 0x01, 0x2C]) := by
  refine ⟨file_info_wire be info, ?_, ?_⟩
  · intro c w blk_size client filename num_blocks h
    rw [send_info_events c w blk_size client filename num_blocks h, packets_sent_single]
  · intro filename
    rw [file_info_wire]
    exact ex_bytes filename

/-- Claim C6: for a datagram whose magic equals neither `MAGIC_REQUEST_INFO`
nor `MAGIC_WAITING`, `recvd_hello` returns 0 and leaves the client record
unchanged, and the pass of the main loop only logs: the variables of the loop
are unchanged, no despatcher is called, no packet is sent and the encoder is
not called. -/
theorem unknown_magic_ignored (c : Consts) (filename : List Nat) (st : server_state)
    (data : List Nat) (addr : sockaddr_in) (w : World)
    (h1 : datagram_magic data ≠ to_int32 c.MAGIC_REQUEST_INFO)
    (h2 : datagram_magic data ≠ to_int32 c.MAGIC_WAITING) :
    (recvd_hello c (Recvfrom.datagram data addr) st.client).ret = some 0
    ∧ (recvd_hello c (Recvfrom.datagram data addr) st.client).new_client = st.client
    ∧ main_pass c filename st (Recvfrom.datagram data addr) w
        = { flow := Flow.next, state := st, events := [Event.log_unknown 0] }
    ∧ despatches (main_pass c filename st (Recvfrom.datagram data addr) w).events = []
    ∧ packets_sent (main_pass c filename st (Recvfrom.datagram data addr) w).events = []
    ∧ encoder_calls (main_pass c filename st (Recvfrom.datagram data addr) w).events = [] := by
  obtain ⟨hr, hc⟩ := recvd_hello_unknown c data addr st.client h1 h2
  have hp : main_pass c filename st (Recvfrom.datagram data addr) w
      = { flow := Flow.next, state := st, events := [Event.log_unknown 0] } := by
    simp only [main_pass, hr, hc]
    simp
  refine ⟨hr, hc, hp, ?_, ?_, ?_⟩ <;> rw [hp] <;> rfl

/-- Claim C6 at a datagram with the four bytes `FF FF FF FF`, whose magic is
the `-1` of the sentinel row. -/
theorem unknown_magic_ignored_witness :
    datagram_magic [0xFF, 0xFF, 0xFF, 0xFF] = -1
    ∧ datagram_magic [0xFF, 0xFF, 0xFF, 0xFF] ≠ to_int32 sample_consts.MAGIC_REQUEST_INFO
    ∧ datagram_magic [0xFF, 0xFF, 0xFF, 0xFF] ≠ to_int32 sample_consts.MAGIC_WAITING
    ∧ main_pass sample_consts [] sample_state
          (Recvfrom.datagram [0xFF, 0xFF, 0xFF, 0xFF] sample_client.address) world_all_ok
        = { flow := Flow.next, state := sample_state, events := [Event.log_unknown 0] } :=
  ⟨by decide, by decide, by decide,
    (unknown_magic_ignored sample_consts [] sample_state [0xFF, 0xFF, 0xFF, 0xFF]
      sample_client.address world_all_ok (by decide) (by decide)).2.2.1⟩

/-- Claim C7: with the two request constants distinct and different from the
sentinel `-1`, a datagram whose magic is `MAGIC_REQUEST_INFO` makes
`recvd_hello` record the sender as the client and the main loop call
`send_info`, and no other handler, exactly once for that client (one metadata
datagram to the sender when the block count is computed); a datagram whose
magic is `MAGIC_WAITING` makes the main loop call `send_block_burst`, and no
other handler, exactly once for that client. -/
theorem request_magic_despatch (c : Consts) (filename : List Nat) (st : server_state)
    (data : List Nat) (addr : sockaddr_in) (w : World)
    (hA : to_int32 c.MAGIC_REQUEST_INFO ≠ -1) (hB : to_int32 c.MAGIC_WAITING ≠ -1)
    (hAB : to_int32 c.MAGIC_REQUEST_INFO ≠ to_int32 c.MAGIC_WAITING) :
    (datagram_magic data = to_int32 c.MAGIC_REQUEST_INFO →
      (recvd_hello c (Recvfrom.datagram data addr) st.client).ret = some 1
      ∧ (recvd_hello c (Recvfrom.datagram data addr) st.client).new_client
          = { address := addr }
      ∧ despatches (main_pass c filename st (Recvfrom.datagram data addr) w).events
          = [(1, Handler.send_info, { address := addr })]
      ∧ (∀ num_blocks, fsize_in_blocks w.stat st.blk_size = some num_blocks →
          ∃ bytes,
            packets_sent (main_pass c filename st (Recvfrom.datagram data addr) w).events
              = [(addr, bytes)]))
    ∧ (datagram_magic data = to_int32 c.MAGIC_WAITING →
      (recvd_hello c (Recvfrom.datagram data addr) st.client).ret = some 2
      ∧ (recvd_hello c (Recvfrom.datagram data addr) st.client).new_client
          = { address := addr }
      ∧ despatches (main_pass c filename st (Recvfrom.datagram data addr) w).events
          = [(2, Handler.send_block_burst, { address := addr })]) := by
  constructor
  · intro hm
    obtain ⟨hr, hc⟩ := recvd_hello_info c data addr st.client hA hm
    have hp := main_pass_of_ret c filename st (Recvfrom.datagram data addr) w 1
      (by decide) hr
    rw [hc] at hp
    have hd := call_despatcher_info c w filename { st with client := { address := addr } }
    refine ⟨hr, hc, ?_, ?_⟩
    · rw [hp]; exact hd.1
    · intro nb hnb
      rw [hp, hd.2.1, send_info_events c w st.blk_size _ filename nb hnb]
      exact ⟨_, rfl⟩
  · intro hm
    obtain ⟨hr, hc⟩ := recvd_hello_waiting c data addr st.client hA hB hAB hm
    have hp := main_pass_of_ret c filename st (Recvfrom.datagram data addr) w 2
      (by decide) hr
    rw [hc] at hp
    have hd := call_despatcher_burst_events c w filename
      { st with client := { address := addr } }
    refine ⟨hr, hc, ?_⟩
    rw [hp]; exact hd.1

/-- Claim C7 at the sample constants, for one datagram of each request kind. -/
theorem request_magic_despatch_witness :
    to_int32 sample_consts.MAGIC_REQUEST_INFO ≠ -1
    ∧ to_int32 sample_consts.MAGIC_WAITING ≠ -1
    ∧ to_int32 sample_consts.MAGIC_REQUEST_INFO ≠ to_int32 sample_consts.MAGIC_WAITING
    ∧ datagram_magic [0x46, 0x54, 0x4E, 0x31] = to_int32 sample_consts.MAGIC_REQUEST_INFO
    ∧ despatches (main_pass sample_consts [] sample_state
          (Recvfrom.datagram [0x46, 0x54, 0x4E, 0x31] sample_client.address)
          world_all_ok).events
        = [(1, Handler.send_info, sample_client)]
    ∧ datagram_magic [0x46, 0x54, 0x4E, 0x32] = to_int32 sample_consts.MAGIC_WAITING
    ∧ despatches (main_pass sample_consts [] sample_state
          (Recvfrom.datagram [0x46, 0x54, 0x4E, 0x32] sample_client.address)
          world_all_ok).events
        = [(2, Handler.send_block_burst, sample_client)] :=
  ⟨by decide, by decide, by decide, by decide,
    ((request_magic_despatch sample_consts [] sample_state [0x46, 0x54, 0x4E, 0x31]
      sample_client.address world_all_ok (by decide) (by decide) (by decide)).1
        (by decide)).2.2.1,
    by decide,
    ((request_magic_despatch sample_consts [] sample_state [0x46, 0x54, 0x4E, 0x32]
      sample_client.address world_all_ok (by decide) (by decide) (by decide)).2
        (by decide)).2.2⟩

/-- Claim C8: when the file opens and every encoder call, every packing and
every `sendto` of the burst succeeds, `send_block_burst` returns 0 after
exactly `BURST_SIZE = 1000` encoder calls, one for each iteration, and exactly
1000 packets, all addressed to the requesting client. -/
theorem burst_sends_burst_size (c : Consts) (w : World) (client : client_s)
    (hopen : w.fopen = true)
    (henc : ∀ i, i < BURST_SIZE → w.fmake_fountain i = true)
    (hpack : ∀ i, i < BURST_SIZE → (w.pack_fountain i).length ≠ 0)
    (hsend : ∀ i, i < BURST_SIZE → w.sendto i ≠ c.SOCKET_ERROR) :
    (send_block_burst c w client).1 = Outcome.returned 0
    ∧ encoder_calls (send_block_burst c w client).2 = List.range BURST_SIZE
    ∧ (encoder_calls (send_block_burst c w client).2).length = 1000
    ∧ packets_sent (send_block_burst c w client).2
        = (List.range BURST_SIZE).map (fun i => (client.address, w.pack_fountain i))
    ∧ (packets_sent (send_block_burst c w client).2).length = 1000
    ∧ (∀ p, p ∈ packets_sent (send_block_burst c w client).2 → p.1 = client.address) := by
  have hrun : send_block_burst c w client
      = (Outcome.returned 0,
          (List.range' 0 BURST_SIZE).flatMap (burst_pass_events c w client)
            ++ [Event.fclose]) := by
    unfold send_block_burst
    rw [if_pos hopen]
    apply burst_loop_runs
    · intro j _ h2
      exact henc j (by omega)
    · intro j _ h2 hneg
      rw [send_fountain_ok c w client j (hpack j (by omega)) (hsend j (by omega))] at hneg
      exact absurd hneg (lt_irrefl 0)
  have he : encoder_calls (send_block_burst c w client).2 = List.range BURST_SIZE := by
    rw [hrun, List.range_eq_range']
    exact encoder_calls_trace c w client BURST_SIZE 0
  have hp : packets_sent (send_block_burst c w client).2
      = (List.range BURST_SIZE).map (fun i => (client.address, w.pack_fountain i)) := by
    rw [hrun, List.range_eq_range']
    exact packets_sent_trace_ok c w client BURST_SIZE 0
      (fun j _ h2 => ⟨hpack j (by omega), hsend j (by omega)⟩)
  refine ⟨?_, he, ?_, hp, ?_, ?_⟩
  · rw [hrun]
  · rw [he, List.length_range]
    rfl
  · rw [hp, List.length_map, List.length_range]
    rfl
  · intro p hmem
    rw [hp, List.mem_map] at hmem
    obtain ⟨j, _, rfl⟩ := hmem
    rfl

/-- Claim C8 in the environment where every call succeeds. -/
theorem burst_sends_burst_size_witness :
    world_all_ok.fopen = true
    ∧ (∀ i, i < BURST_SIZE → world_all_ok.fmake_fountain i = true)
    ∧ (∀ i, i < BURST_SIZE → (world_all_ok.pack_fountain i).length ≠ 0)
    ∧ (∀ i, i < BURST_SIZE → world_all_ok.sendto i ≠ sample_consts.SOCKET_ERROR)
    ∧ ((send_block_burst sample_consts world_all_ok sample_client).1 = Outcome.returned 0
      ∧ encoder_calls (send_block_burst sample_consts world_all_ok sample_client).2
          = List.range BURST_SIZE
      ∧ (encoder_calls (send_block_burst sample_consts world_all_ok sample_client).2).length
          = 1000
      ∧ packets_sent (send_block_burst sample_consts world_all_ok sample_client).2
          = (List.range BURST_SIZE).map
              (fun i => (sample_client.address, world_all_ok.pack_fountain i))
      ∧ (packets_sent (send_block_burst sample_consts world_all_ok sample_client).2).length
          = 1000
      ∧ (∀ p, p ∈ packets_sent (send_block_burst sample_consts world_all_ok sample_client).2 →
          p.1 = sample_client.address)) :=
  ⟨rfl, fun _ _ => rfl, fun _ _ => Nat.succ_ne_zero 0,
    fun _ _ => (by decide : (1 : Int) ≠ -1),
    burst_sends_burst_size sample_consts world_all_ok sample_client rfl (fun _ _ => rfl)
      (fun _ _ => Nat.succ_ne_zero 0) (fun _ _ => (by decide : (1 : Int) ≠ -1))⟩

/-- Claim C9 fails when the first `sendto` of a burst fails: if `handle_error`
returns, packet 1 is still encoded; if it does not return, the despatcher does
not return either. -/
theorem send_failure_not_aborted :
    (send_fountain sample_consts (world_first_send_fails true) sample_client 0).1 < 0
    ∧ ¬ burst_aborted_after sample_consts (world_first_send_fails true) sample_client 0
    ∧ (send_fountain sample_consts (world_first_send_fails false) sample_client 0).1 < 0
    ∧ ¬ burst_aborted_after sample_consts (world_first_send_fails false) sample_client 0 := by
  refine ⟨first_send_fails true, ?_, first_send_fails false, ?_⟩
  · intro h
    have hrun := burst_loop_runs sample_consts (world_first_send_fails true) sample_client
      BURST_SIZE 0 (fun _ _ _ => rfl) (fun _ _ _ _ => rfl)
    apply h.1 1 (by decide)
    rw [send_block_burst_open _ _ _ rfl, hrun]
    apply mem_trace_of_mem_pass _ _ _ BURST_SIZE 0 1 _ (by decide) (by decide)
    unfold burst_pass_events
    simp
  · intro h
    obtain ⟨v, hv⟩ := h.2.2
    have hex : (burst_loop sample_consts (world_first_send_fails false) sample_client
        BURST_SIZE 0).1 = Outcome.exited :=
      burst_loop_exits sample_consts (world_first_send_fails false) sample_client 999 0 rfl
        (first_send_fails false) rfl
    rw [send_block_burst_open _ _ _ rfl, hex] at hv
    exact Outcome.noConfusion hv

/-- Claim C9, amended: when `send_fountain` returns a negative error for packet
`k` of a burst, the file opens, every encoder call succeeds and `handle_error`
returns, the burst is not aborted: `handle_error` is called with that error,
the encoder is still called in all 1000 iterations, every later packet that
packs is handed to `sendto`, `send_block_burst` returns 0 and the main loop
goes on to the next request. -/
theorem send_failure_burst_continues (c : Consts) (w : World) (filename : List Nat)
    (st : server_state) (k : Nat)
    (hopen : w.fopen = true)
    (henc : ∀ i, i < BURST_SIZE → w.fmake_fountain i = true)
    (hret : ∀ code, w.handle_error code = true)
    (hk : k < BURST_SIZE)
    (hfail : (send_fountain c w st.client k).1 < 0) :
    (send_block_burst c w st.client).1 = Outcome.returned 0
    ∧ Event.handle_error (send_fountain c w st.client k).1
        ∈ (send_block_burst c w st.client).2
    ∧ encoder_calls (send_block_burst c w st.client).2 = List.range BURST_SIZE
    ∧ (∀ j, k < j → j < BURST_SIZE →
        Event.fmake_fountain j ∈ (send_block_burst c w st.client).2)
    ∧ (∀ j, k < j → j < BURST_SIZE → (w.pack_fountain j).length ≠ 0 →
        Event.sendto j st.client.address (w.pack_fountain j)
          ∈ (send_block_burst c w st.client).2)
    ∧ (call_despatcher c w filename st 2).flow = Flow.next := by
  have hrun : send_block_burst c w st.client
      = (Outcome.returned 0,
          (List.range' 0 BURST_SIZE).flatMap (burst_pass_events c w st.client)
            ++ [Event.fclose]) := by
    rw [send_block_burst_open c w st.client hopen]
    exact burst_loop_runs c w st.client BURST_SIZE 0 (fun j _ h2 => henc j (by omega))
      (fun j _ _ _ => hret _)
  have hout : (send_block_burst c w st.client).1 = Outcome.returned 0 := by rw [hrun]
  refine ⟨hout, ?_, ?_, ?_, ?_, call_despatcher_burst c w filename st hout⟩
  · rw [hrun]
    apply mem_trace_of_mem_pass c w st.client BURST_SIZE 0 k _ (Nat.zero_le k) (by omega)
    unfold burst_pass_events
    rw [if_pos hfail]
    simp
  · rw [hrun, List.range_eq_range']
    exact encoder_calls_trace c w st.client BURST_SIZE 0
  · intro j _ hj
    rw [hrun]
    apply mem_trace_of_mem_pass c w st.client BURST_SIZE 0 j _ (Nat.zero_le j) (by omega)
    unfold burst_pass_events
    simp
  · intro j _ hj hp
    rw [hrun]
    apply mem_trace_of_mem_pass c w st.client BURST_SIZE 0 j _ (Nat.zero_le j) (by omega)
    unfold burst_pass_events
    rw [send_fountain_packed c w st.client j hp]
    simp

/-- Claim C9, amended, in the environment where the first `sendto` of the burst
fails and `handle_error` returns. -/
theorem send_failure_burst_continues_witness :
    (world_first_send_fails true).fopen = true
    ∧ (∀ i, i < BURST_SIZE → (world_first_send_fails true).fmake_fountain i = true)
    ∧ (∀ code, (world_first_send_fails true).handle_error code = true)
    ∧ 0 < BURST_SIZE
    ∧ (send_fountain sample_consts (world_first_send_fails true) sample_state.client 0).1 < 0
    ∧ (send_block_burst sample_consts (world_first_send_fails true) sample_state.client).1
        = Outcome.returned 0
    ∧ Event.fmake_fountain 1
        ∈ (send_block_burst sample_consts (world_first_send_fails true) sample_state.client).2
    ∧ (call_despatcher sample_consts (world_first_send_fails true) [] sample_state 2).flow
        = Flow.next :=
  have h := send_failure_burst_continues sample_consts (world_first_send_fails true) []
    sample_state 0 rfl (fun _ _ => rfl) (fun _ => rfl) (by decide) (by decide)
  ⟨rfl, fun _ _ => rfl, fun _ => rfl, by decide, by decide, h.1,
    h.2.2.2.1 1 (by decide) (by decide), h.2.2.2.2.2⟩

/-- Claim C10: `recvd_hello` returns -1, 0, 1 or 2; its scan reads only rows
1 to 3 of the four-row table and, when nothing matches, stops at a row whose
magic is `-1`; every call the main loop makes through the table uses row 1 or
2, whose despatcher is not `NULL`, so that no pass of the loop reads outside
the table or calls a null pointer. -/
theorem table_call_in_bounds (c : Consts) (filename : List Nat) (st : server_state)
    (rx : Recvfrom) (w : World) :
    ((recvd_hello c rx st.client).ret = some (-1)
      ∨ (recvd_hello c rx st.client).ret = some 0
      ∨ (recvd_hello c rx st.client).ret = some 1
      ∨ (recvd_hello c rx st.client).ret = some 2)
    ∧ (lookup_table c).length = 4
    ∧ (∀ i, i ∈ (recvd_hello c rx st.client).reads → 1 ≤ i ∧ i < (lookup_table c).length)
    ∧ ((recvd_hello c rx st.client).ret = some 0 →
        ∃ i, (recvd_hello c rx st.client).reads.getLast? = some i
          ∧ ((lookup_table c).get? i).map (fun row => row.magic) = some (-1))
    ∧ (∀ idx h cl,
        (idx, h, cl) ∈ despatches (main_pass c filename st rx w).events →
          (idx = 1 ∨ idx = 2)
          ∧ ((lookup_table c).get? idx).map (fun row => row.despatcher) = some (some h))
    ∧ (main_pass c filename st rx w).flow ≠ Flow.undefined Fault.table_bounds
    ∧ (main_pass c filename st rx w).flow ≠ Flow.undefined Fault.null_call := by
  have hlen : (lookup_table c).length = 4 := rfl
  have hsent : (recvd_hello c rx st.client).ret = some 0 →
      ∃ i, (recvd_hello c rx st.client).reads.getLast? = some i
        ∧ ((lookup_table c).get? i).map (fun row => row.magic) = some (-1) := by
    cases rx with
    | error => intro h; simp [recvd_hello] at h
    | datagram data addr =>
      simp only [recvd_hello, scan_table]
      split_ifs with hA hm hB hm2
      · intro h; simp at h
      · intro h; simp at h
      · intro _; exact ⟨3, rfl, rfl⟩
      · intro _
        refine ⟨2, rfl, ?_⟩
        simp only [lookup_table, List.get?, Option.map, not_not.mp hB]
      · intro _
        refine ⟨1, rfl, ?_⟩
        simp only [lookup_table, List.get?, Option.map, not_not.mp hA]
  rcases recvd_hello_ret c rx st.client with
    ⟨hr, hreads⟩ | ⟨hr, hreads⟩ | ⟨hr, hreads⟩ | ⟨hr, hreads⟩
  · have hp : main_pass c filename st rx w
        = { flow := Flow.leave,
            state := { st with client := (recvd_hello c rx st.client).new_client },
            events := [Event.close_connection] } := by
      simp only [main_pass, hr]
      rfl
    refine ⟨Or.inl hr, hlen, ?_, hsent, ?_, ?_, ?_⟩
    · intro i hi; rw [hreads] at hi; exact absurd hi (List.not_mem_nil i)
    · intro idx h cl hmem; rw [hp] at hmem; exact absurd hmem (List.not_mem_nil _)
    · rw [hp]; exact fun h => Flow.noConfusion h
    · rw [hp]; exact fun h => Flow.noConfusion h
  · have hp : main_pass c filename st rx w
        = { flow := Flow.next,
            state := { st with client := (recvd_hello c rx st.client).new_client },
            events := [Event.log_unknown 0] } := by
      simp only [main_pass, hr]
      rfl
    refine ⟨Or.inr (Or.inl hr), hlen, ?_, hsent, ?_, ?_, ?_⟩
    · intro i hi
      rw [hlen]
      rcases hreads with h | h | h <;> rw [h] at hi <;> simp at hi <;> omega
    · intro idx h cl hmem; rw [hp] at hmem; exact absurd hmem (List.not_mem_nil _)
    · rw [hp]; exact fun h => Flow.noConfusion h
    · rw [hp]; exact fun h => Flow.noConfusion h
  · have hp := main_pass_of_ret c filename st rx w 1 (by decide) hr
    have hd := call_despatcher_info c w filename
      { st with client := (recvd_hello c rx st.client).new_client }
    refine ⟨Or.inr (Or.inr (Or.inl hr)), hlen, ?_, hsent, ?_, ?_, ?_⟩
    · intro i hi
      rw [hlen]; rw [hreads] at hi; simp at hi; omega
    · intro idx h cl hmem
      rw [hp, hd.1, List.mem_singleton] at hmem
      injection hmem with h1 h2
      injection h2 with h2 h3
      subst h1 h2
      exact ⟨Or.inl rfl, rfl⟩
    · rw [hp]; intro h; exact absurd (hd.2.2 _ h) (by decide)
    · rw [hp]; intro h; exact absurd (hd.2.2 _ h) (by decide)
  · have hp := main_pass_of_ret c filename st rx w 2 (by decide) hr
    have hd := call_despatcher_burst_events c w filename
      { st with client := (recvd_hello c rx st.client).new_client }
    refine ⟨Or.inr (Or.inr (Or.inr hr)), hlen, ?_, hsent, ?_, ?_, ?_⟩
    · intro i hi
      rw [hlen]; rw [hreads] at hi; simp at hi; omega
    · intro idx h cl hmem
      rw [hp, hd.1, List.mem_singleton] at hmem
      injection hmem with h1 h2
      injection h2 with h2 h3
      subst h1 h2
      exact ⟨Or.inr rfl, rfl⟩
    · rw [hp]; intro h; exact absurd (hd.2 _ h) (by decide)
    · rw [hp]; intro h; exact absurd (hd.2 _ h) (by decide)

end Fountain
